import Mathlib

/-!
Batch-ingestion consumer of `backend/rabbitMQ/rabbitmq.js`.

The consumer (`consumeFromQueue`) is embedded as a transition system.  One
event is one turn of the JavaScript event loop: a message delivery (the
`channel.consume` callback up to its `await`), the firing of the flush timer,
the firing of a retry timer, or the settling of a pending
`prisma.speedValues.createMany` promise (the continuation of `processBatch`
after its `await`, i.e. the rest of `try`, the `catch` and the `finally`).
Every turn runs to completion without interleaving, as in the source.

The module-level variables `buffer`, `pendingMessages`, `timer`,
`isProcessing` are fields of `State`.  The closures that the source leaves
suspended (pending writes with their captured `batchToProcess`,
`messagesToAck`, `retryCount`; pending retry `setTimeout`s) are explicit
lists.  Calls on the collaborators (`channel.ack`, `channel.nack`,
`createMany`, `setTimeout`, `clearTimeout`) are recorded in logs, a call that
throws included.

`channel.ack` and `channel.nack` can throw (they do on a closed channel).  The
`channel.ack` loop stands inside the `try` of `processBatch`, so an exception
of `channel.ack` runs the `catch`.  The `channel.nack` loop stands inside the
`catch`, so an exception of `channel.nack` leaves `processBatch` through the
`finally`; that branch needs `retryCount >= MAX_RETRIES`, which only a call
from a retry timeout has, and the retry callback does not look at the promise,
so nothing else of the consumer runs.  An exception of the `channel.nack` of a
malformed message leaves the `channel.consume` callback and changes nothing.
-/

namespace Speedometer

/-- A broker message (its identity is what `channel.ack` receives). -/
abbrev Handle := Nat

/-- The value `JSON.parse(msg.content.toString())` of a message. -/
abbrev Reading := Int

def BATCH_SIZE : Nat := 10
def BATCH_TIMEOUT : Nat := 10000
def MAX_RETRIES : Nat := 3
def RETRY_DELAY : Nat := 5000

/-- The variable `timer`: `null`, the handle of a flush timeout that is still
to fire, or the (truthy) handle of a flush timeout that has already fired. -/
inductive TimerSlot where
  | null
  | armed
  | fired
  deriving DecidableEq

/-- A call of `processBatch` suspended at `await createMany(...)`, with the
variables its closure captured. -/
structure Write where
  batchToProcess : List Reading
  messagesToAck : List Handle
  retryCount : Nat
  deriving DecidableEq

/-- A pending `setTimeout(() => { isProcessing = false; processBatch(retryCount + 1) }, delay)`. -/
structure RetryTimer where
  nextRetryCount : Nat
  delay : Nat
  deriving DecidableEq

structure State where
  /-- `buffer` -/
  buffer : List Reading
  /-- `pendingMessages` -/
  pendingMessages : List Handle
  /-- `timer` -/
  timer : TimerSlot
  /-- `isProcessing` -/
  isProcessing : Bool
  /-- pending `createMany` promises, oldest first -/
  inflight : List Write
  /-- pending retry timeouts, oldest first -/
  retryTimers : List RetryTimer
  /-- every `createMany` call issued so far, with the closure that issued it -/
  writes : List Write
  /-- arguments of the `channel.ack(msg)` calls so far -/
  acked : List Handle
  /-- arguments of the `channel.nack(msg, allUpTo, requeue)` calls so far -/
  nacked : List (Handle × Bool × Bool)
  /-- number of `setTimeout(..., BATCH_TIMEOUT)` calls so far -/
  flushArmed : Nat
  /-- number of `clearTimeout(timer)` calls so far -/
  flushCleared : Nat
  /-- delays of the retry `setTimeout` calls so far -/
  retryDelays : List Nat
  deriving DecidableEq

/-- The module state at load time. -/
def State.init : State :=
  { buffer := [], pendingMessages := [], timer := TimerSlot.null, isProcessing := false,
    inflight := [], retryTimers := [], writes := [], acked := [], nacked := [],
    flushArmed := 0, flushCleared := 0, retryDelays := [] }

/-- `processBatch(retryCount)` up to its `await`: the two guards, the capture
of the buffer, the clearing of the flush timer and the `createMany` call. -/
def processBatch (retryCount : Nat) (s : State) : State :=
  if s.isProcessing then s
  else if s.buffer.length = 0 then s
  else
    let w : Write := { batchToProcess := s.buffer, messagesToAck := s.pendingMessages,
                       retryCount := retryCount }
    { s with
      isProcessing := true
      buffer := []
      pendingMessages := []
      timer := TimerSlot.null
      flushCleared := if s.timer = TimerSlot.null then s.flushCleared else s.flushCleared + 1
      inflight := s.inflight ++ [w]
      writes := s.writes ++ [w] }

/-- The `finally` block of `processBatch`. -/
def finallyBlock (retryCount : Nat) (s : State) : State :=
  if retryCount = 0 ∨ retryCount ≥ MAX_RETRIES then { s with isProcessing := false } else s

/-- The handles that a `forEach` loop over `ms` passes to `channel.ack` (or
`channel.nack`) when the call number `throwsAt` (counted from 0) throws: the
loop ends with that call. -/
def callsMade (ms : List Handle) : Option Nat → List Handle
  | none => ms
  | some k => ms.take (k + 1)

/-- Whether the `forEach` loop over `ms` is left by an exception. -/
def loopThrows (ms : List Handle) : Option Nat → Bool
  | none => false
  | some k => decide (k < ms.length)

/-- The continuation of `processBatch` after the `await`, for the closure `w`:
the rest of the `try` when the write succeeded, the `catch` when the write
failed or `channel.ack` threw, then the `finally`.  `ackThrowsAt` and
`nackThrowsAt` say which call of the `channel.ack` loop and of the
`channel.nack` loop throws, if any. -/
def resume (w : Write) (ok : Bool) (ackThrowsAt nackThrowsAt : Option Nat) (s : State) : State :=
  if ok && !loopThrows w.messagesToAck ackThrowsAt then
    finallyBlock w.retryCount { s with acked := s.acked ++ w.messagesToAck }
  else
    let s1 := if ok then { s with acked := s.acked ++ callsMade w.messagesToAck ackThrowsAt }
      else s
    if w.retryCount < MAX_RETRIES then
      let delay := RETRY_DELAY * 2 ^ w.retryCount
      finallyBlock w.retryCount
        { s1 with
          buffer := w.batchToProcess ++ s1.buffer
          pendingMessages := w.messagesToAck ++ s1.pendingMessages
          retryTimers :=
            s1.retryTimers ++ [{ nextRetryCount := w.retryCount + 1, delay := delay }]
          retryDelays := s1.retryDelays ++ [delay] }
    else
      finallyBlock w.retryCount
        { s1 with
          nacked := s1.nacked
            ++ (callsMade w.messagesToAck nackThrowsAt).map (fun m => (m, false, false))
          isProcessing :=
            if loopThrows w.messagesToAck nackThrowsAt then s1.isProcessing else false }

/-- The `channel.consume` callback for a non-null message whose content parses
to `data`. -/
def onMessage (msg : Handle) (data : Reading) (s : State) : State :=
  let s1 := { s with buffer := s.buffer ++ [data], pendingMessages := s.pendingMessages ++ [msg] }
  let s2 := if s1.timer = TimerSlot.null then
      { s1 with timer := TimerSlot.armed, flushArmed := s1.flushArmed + 1 }
    else s1
  if s2.buffer.length ≥ BATCH_SIZE then processBatch 0 s2 else s2

/-- One turn of the event loop. -/
inductive Event where
  /-- delivery of `msg`; `content = none` when `JSON.parse` throws -/
  | deliver (msg : Handle) (content : Option Reading)
  /-- delivery of `null` (consumer cancelled) -/
  | cancelled
  /-- the flush timeout fires -/
  | flushTimeout
  /-- the `i`-th pending retry timeout fires -/
  | retryTimeout (i : Nat)
  /-- the `i`-th pending `createMany` promise settles (`ok`: it resolves) and
  no call on the channel throws -/
  | writeSettled (i : Nat) (ok : Bool)
  /-- the `i`-th pending `createMany` promise settles and, in the continuation,
  the given call of the `channel.ack` loop or of the `channel.nack` loop throws -/
  | writeSettledThrowing (i : Nat) (ok : Bool) (ackThrowsAt nackThrowsAt : Option Nat)
  deriving DecidableEq

/-- Whether the event can occur in the state. -/
def enabled (s : State) : Event → Bool
  | Event.deliver _ _ => true
  | Event.cancelled => true
  | Event.flushTimeout => decide (s.timer = TimerSlot.armed)
  | Event.retryTimeout i => decide (i < s.retryTimers.length)
  | Event.writeSettled i _ => decide (i < s.inflight.length)
  | Event.writeSettledThrowing i _ _ _ => decide (i < s.inflight.length)

/-- The effect of one turn.  An event that cannot occur leaves the state
unchanged. -/
def step (s : State) : Event → State
  | Event.deliver msg none =>
      { s with nacked := s.nacked ++ [(msg, false, false)] }
  | Event.deliver msg (some data) => onMessage msg data s
  | Event.cancelled => s
  | Event.flushTimeout =>
      if s.timer = TimerSlot.armed then processBatch 0 { s with timer := TimerSlot.fired } else s
  | Event.retryTimeout i =>
      match s.retryTimers[i]? with
      | none => s
      | some t =>
          processBatch t.nextRetryCount
            { s with retryTimers := s.retryTimers.eraseIdx i, isProcessing := false }
  | Event.writeSettled i ok =>
      match s.inflight[i]? with
      | none => s
      | some w => resume w ok none none { s with inflight := s.inflight.eraseIdx i }
  | Event.writeSettledThrowing i ok ackThrowsAt nackThrowsAt =>
      match s.inflight[i]? with
      | none => s
      | some w =>
          resume w ok ackThrowsAt nackThrowsAt { s with inflight := s.inflight.eraseIdx i }

/-- The state after a sequence of turns. -/
def run (s : State) : List Event → State
  | [] => s
  | e :: es => run (step s e) es

/-- Every event of the sequence can occur when its turn comes. -/
def feasible (s : State) : List Event → Bool
  | [] => true
  | e :: es => enabled s e && feasible (step s e) es

/-- The handles of the messages an event sequence delivers. -/
def deliveredHandles : List Event → List Handle
  | [] => []
  | Event.deliver msg _ :: es => msg :: deliveredHandles es
  | _ :: es => deliveredHandles es

/-- Delivery of well-formed messages `msg` with content `msg` for `msg = a, ..., a + n - 1`. -/
def deliverRange (a n : Nat) : List Event :=
  (List.range n).map (fun i => Event.deliver (a + i) (some ((a + i : Nat) : Int)))

/-- Occurrences of `h` among the handles captured by pending writes. -/
def inflightCount (h : Handle) : List Write → Nat
  | [] => 0
  | w :: ws => w.messagesToAck.count h + inflightCount h ws

/-- Occurrences of `h` in the places a delivered handle can be: waiting in
`pendingMessages`, captured by a pending write, acknowledged, or rejected. -/
def occ (h : Handle) (s : State) : Nat :=
  s.pendingMessages.count h + inflightCount h s.inflight + s.acked.count h
    + (s.nacked.map Prod.fst).count h

/-- Delivery of the well-formed message `n` whose content is the number `n`. -/
def wellFormed (n : Nat) : Event := Event.deliver n (some (n : Int))

/-- The turns that follow a capture when the store write fails on every
attempt and nothing else happens: each failure but the last is followed by
its retry timeout. -/
def failCycle : List Event :=
  [Event.writeSettled 0 false, Event.retryTimeout 0,
   Event.writeSettled 0 false, Event.retryTimeout 0,
   Event.writeSettled 0 false, Event.retryTimeout 0,
   Event.writeSettled 0 false]

/-- The turns that follow a capture when the store write fails twice and then
succeeds. -/
def recoverCycle : List Event :=
  [Event.writeSettled 0 false, Event.retryTimeout 0,
   Event.writeSettled 0 false, Event.retryTimeout 0,
   Event.writeSettled 0 true]

/-- Ten messages reach the size trigger and their write fails (`retryCount`
0); message 11 reaches the size trigger again and starts a write that stays
pending; message 12 arrives; the retry timeout of the first failure fires. -/
def overlapTrace : List Event :=
  deliverRange 1 10 ++
    [Event.writeSettled 0 false, wellFormed 11, wellFormed 12, Event.retryTimeout 0]

/-- Ten messages reach the size trigger and their write fails (`retryCount` 0). -/
def earlyResetTrace : List Event := deliverRange 1 10 ++ [Event.writeSettled 0 false]

/-- The turns of `overlapTrace`, then message 13 arrives, both pending writes
fail (the older one first), message 14 reaches the size trigger and its write
succeeds. -/
def reorderTrace : List Event :=
  deliverRange 1 10 ++
    [Event.writeSettled 0 false, wellFormed 11, wellFormed 12, Event.retryTimeout 0, wellFormed 13,
     Event.writeSettled 0 false, Event.writeSettled 0 false, wellFormed 14,
     Event.writeSettled 0 true]

/-- One message is flushed by the timer and its write fails on every attempt. -/
def exhaustTrace : List Event := [wellFormed 1, Event.flushTimeout] ++ failCycle

/-- One message is flushed by the timer; its write fails with `retryCount` 0
and again with `retryCount` 1; message 2 arrives during the second retry
delay; the retry timeout fires. -/
def regrowTrace : List Event :=
  [wellFormed 1, Event.flushTimeout, Event.writeSettled 0 false, Event.retryTimeout 0,
   Event.writeSettled 0 false, wellFormed 2, Event.retryTimeout 0]

/-- One message is flushed by the timer and its write fails. -/
def rearmTrace : List Event := [wellFormed 1, Event.flushTimeout, Event.writeSettled 0 false]

/-- Turns that neither fire a retry timeout nor settle a write. -/
def quiet : Event → Bool
  | Event.deliver _ _ => true
  | Event.cancelled => true
  | Event.flushTimeout => true
  | Event.retryTimeout _ => false
  | Event.writeSettled _ _ => false
  | Event.writeSettledThrowing _ _ _ _ => false

/-- The turn is a settling in whose continuation a call on the channel throws. -/
def channelThrows : Event → Bool
  | Event.writeSettledThrowing _ _ _ _ => true
  | _ => false

/-- The readings of the well-formed messages a sequence delivers, in order. -/
def arrivedReadings : List Event → List Reading
  | [] => []
  | Event.deliver _ (some data) :: es => data :: arrivedReadings es
  | _ :: es => arrivedReadings es

/-- The handles of the well-formed messages a sequence delivers, in order. -/
def arrivedHandles : List Event → List Handle
  | [] => []
  | Event.deliver msg (some _) :: es => msg :: arrivedHandles es
  | _ :: es => arrivedHandles es

/-- The event is the delivery of a message whose content parses. -/
def isWellFormedDelivery : Event → Bool
  | Event.deliver _ (some _) => true
  | _ => false

/-- An empty buffer comes with `timer === null`. -/
def timerTracksBuffer (s : State) : Prop := s.buffer = [] → s.timer = TimerSlot.null

/-- Delivery of one well-formed message, after which the write it started (if
it started one) succeeds. -/
def deliverThenCommit (s : State) (m : Handle × Reading) : State :=
  let s1 := step s (Event.deliver m.1 (some m.2))
  if s1.inflight.isEmpty then s1 else step s1 (Event.writeSettled 0 true)

/-- Delivery of well-formed messages one after the other, where a write
started by a delivery succeeds before the next delivery. -/
def deliverCommitted (s : State) : List (Handle × Reading) → State
  | [] => s
  | m :: ms => deliverCommitted (deliverThenCommit s m) ms

/-- Ten well-formed messages `1, ..., 10`. -/
def tenMessages : List (Handle × Reading) :=
  (List.range 10).map (fun i => (i + 1, ((i + 1 : Nat) : Int)))

/-- Two messages wait in the buffer, the flush timer is armed, nothing is pending. -/
def twoBuffered : State := run State.init [wellFormed 1, wellFormed 2]

/-- The write of message 1 is pending with `retryCount` 1. -/
def secondAttemptPending : State :=
  run State.init
    [wellFormed 1, Event.flushTimeout, Event.writeSettled 0 false, Event.retryTimeout 0]

/-- The write of messages `1, ..., 10` is pending with `retryCount` 0 and
message 11 has arrived since. -/
def firstAttemptPending : State := run State.init (deliverRange 1 10 ++ [wellFormed 11])

/-- The writes of the batch `b` with handles `p` issued with `retryCount`
`0, ..., n - 1`. -/
def attempts (b : List Reading) (p : List Handle) (n : Nat) : List Write :=
  (List.range n).map (fun a => { batchToProcess := b, messagesToAck := p, retryCount := a })

/-- Turns in which no message is delivered, no write succeeds and no call on
the channel throws: a write fails, a timeout fires, or the consumer is told
that it was cancelled. -/
def failureTurn : Event → Bool
  | Event.cancelled => true
  | Event.flushTimeout => true
  | Event.retryTimeout _ => true
  | Event.writeSettled _ ok => !ok
  | _ => false

/-- The states of the cycle of the batch captured from `s0` when each of its
writes fails and nothing is delivered: attempt `k` is pending, or its retry
timeout is pending, or the batch was rejected after attempt `MAX_RETRIES`. -/
def cyclePhase (s0 s : State) : Prop :=
  s.acked = s0.acked ∧ s.timer = TimerSlot.null ∧
  ∃ k, k ≤ MAX_RETRIES ∧
    s.writes = s0.writes ++ attempts s0.buffer s0.pendingMessages (k + 1) ∧
    ((s.inflight = [{ batchToProcess := s0.buffer, messagesToAck := s0.pendingMessages,
                      retryCount := k }] ∧
        s.retryTimers = [] ∧ s.buffer = [] ∧ s.pendingMessages = [] ∧
        s.nacked = s0.nacked ∧ s.isProcessing = true) ∨
      (k < MAX_RETRIES ∧ s.inflight = [] ∧
        s.retryTimers = [{ nextRetryCount := k + 1, delay := RETRY_DELAY * 2 ^ k }] ∧
        s.buffer = s0.buffer ∧ s.pendingMessages = s0.pendingMessages ∧
        s.nacked = s0.nacked) ∨
      (k = MAX_RETRIES ∧ s.inflight = [] ∧ s.retryTimers = [] ∧ s.buffer = [] ∧
        s.pendingMessages = [] ∧
        s.nacked = s0.nacked ++ s0.pendingMessages.map (fun m => (m, false, false)) ∧
        s.isProcessing = false))


/-- Messages 1 and 2 are flushed by the timer; every write succeeds, but the
channel is closed: each time the first `channel.ack` throws, and in the end the
first `channel.nack` throws too. -/
def closedChannelTrace : List Event :=
  [wellFormed 1, wellFormed 2, Event.flushTimeout,
   Event.writeSettledThrowing 0 true (some 0) none, Event.retryTimeout 0,
   Event.writeSettledThrowing 0 true (some 0) none, Event.retryTimeout 0,
   Event.writeSettledThrowing 0 true (some 0) none, Event.retryTimeout 0,
   Event.writeSettledThrowing 0 true (some 0) (some 0)]

/-- Ten messages reach the size trigger and their write fails (`retryCount`
0); message 11 reaches the size trigger and that write succeeds; message 12
arrives; the retry timeout of the first failure fires and captures message 12. -/
def staleCaptureTrace : List Event :=
  deliverRange 1 10 ++
    [Event.writeSettled 0 false, wellFormed 11, Event.writeSettled 0 true, wellFormed 12,
     Event.retryTimeout 0]

/-- After `staleCaptureTrace`, the write of message 12 fails twice and then
succeeds. -/
def staleChainTrace : List Event :=
  staleCaptureTrace ++
    [Event.writeSettled 0 false, Event.retryTimeout 0,
     Event.writeSettled 0 false, Event.retryTimeout 0,
     Event.writeSettled 0 true]

/-- Message 1 is delivered, the flush timeout fires and the write succeeds;
then messages 2 to 10 are delivered. -/
def flushBetweenTrace : List Event :=
  [wellFormed 1, Event.flushTimeout, Event.writeSettled 0 true] ++ deliverRange 2 9

/-- The turns of `deliverCommitted`: each message is delivered and, when the
delivery started a write, the success of that write is the next turn. -/
def commitSchedule (s : State) : List (Handle × Reading) → List Event
  | [] => []
  | m :: ms =>
      if (step s (Event.deliver m.1 (some m.2))).inflight.isEmpty then
        Event.deliver m.1 (some m.2) :: commitSchedule (deliverThenCommit s m) ms
      else
        Event.deliver m.1 (some m.2) :: Event.writeSettled 0 true
          :: commitSchedule (deliverThenCommit s m) ms

/-- The writes issued while `ms` is delivered from `s` along `commitSchedule`. -/
def capturedBatches (s : State) (ms : List (Handle × Reading)) : List Write :=
  (deliverCommitted s ms).writes.drop s.writes.length

/-- Twelve well-formed messages `1, ..., 12`. -/
def twelveMessages : List (Handle × Reading) :=
  (List.range 12).map (fun i => (i + 1, ((i + 1 : Nat) : Int)))

/-! Lemmas -/

theorem inflightCount_append (h : Handle) (xs ys : List Write) :
    inflightCount h (xs ++ ys) = inflightCount h xs + inflightCount h ys := by
  induction xs with
  | nil => simp [inflightCount]
  | cons x xs ih => simp [inflightCount, ih, Nat.add_assoc]

theorem inflightCount_eraseIdx (h : Handle) (ws : List Write) (i : Nat) (w : Write)
    (hw : ws[i]? = some w) :
    inflightCount h ws = w.messagesToAck.count h + inflightCount h (ws.eraseIdx i) := by
  induction ws generalizing i with
  | nil => simp at hw
  | cons x xs ih =>
    cases i with
    | zero =>
      simp at hw
      subst hw
      simp [inflightCount]
    | succ j =>
      simp at hw
      have := ih j hw
      simp [inflightCount, this]
      omega

theorem map_fst_nackAll (ms : List Handle) :
    List.map (Prod.fst ∘ fun m => ((m, false, false) : Handle × Bool × Bool)) ms = ms := by
  induction ms with
  | nil => rfl
  | cons m ms ih => simpa using ih

theorem occ_processBatch (h : Handle) (rc : Nat) (s : State) :
    occ h (processBatch rc s) = occ h s := by
  unfold processBatch
  split
  · rfl
  · split
    · rfl
    · simp [occ, inflightCount_append, inflightCount]
      omega

theorem occ_finallyBlock (h : Handle) (rc : Nat) (s : State) :
    occ h (finallyBlock rc s) = occ h s := by
  unfold finallyBlock
  split <;> rfl

theorem resume_none (w : Write) (ok : Bool) (s : State) :
    resume w ok none none s =
      if ok then
        finallyBlock w.retryCount { s with acked := s.acked ++ w.messagesToAck }
      else if w.retryCount < MAX_RETRIES then
        finallyBlock w.retryCount
          { s with
            buffer := w.batchToProcess ++ s.buffer
            pendingMessages := w.messagesToAck ++ s.pendingMessages
            retryTimers := s.retryTimers
              ++ [{ nextRetryCount := w.retryCount + 1, delay := RETRY_DELAY * 2 ^ w.retryCount }]
            retryDelays := s.retryDelays ++ [RETRY_DELAY * 2 ^ w.retryCount] }
      else
        finallyBlock w.retryCount
          { s with
            nacked := s.nacked ++ w.messagesToAck.map (fun m => (m, false, false))
            isProcessing := false } := by
  cases ok <;> simp [resume, loopThrows, callsMade]

theorem occ_resume (h : Handle) (w : Write) (ok : Bool) (s : State) :
    occ h (resume w ok none none s) = occ h s + w.messagesToAck.count h := by
  rw [resume_none]
  split
  · rw [occ_finallyBlock]; simp [occ]; omega
  · split
    · rw [occ_finallyBlock]; simp [occ]; omega
    · rw [occ_finallyBlock]; simp [occ, map_fst_nackAll]; omega

theorem occ_onMessage (h : Handle) (msg : Handle) (data : Reading) (s : State) :
    occ h (onMessage msg data s) = occ h s + [msg].count h := by
  unfold onMessage
  simp only []
  split <;> split <;> (try rw [occ_processBatch]) <;> (simp [occ]; omega)

theorem occ_step (h : Handle) (s : State) (e : Event) (hn : channelThrows e = false) :
    occ h (step s e) = occ h s + (deliveredHandles [e]).count h := by
  cases e with
  | deliver msg content =>
    cases content with
    | none => simp [step, deliveredHandles, occ]; omega
    | some data => simp only [step, deliveredHandles]; exact occ_onMessage h msg data s
  | cancelled => simp [step, deliveredHandles]
  | flushTimeout =>
    simp only [step, deliveredHandles]
    split
    · rw [occ_processBatch]; simp [occ]
    · simp
  | retryTimeout i =>
    simp only [step, deliveredHandles]
    split
    · simp
    · rw [occ_processBatch]; simp [occ]
  | writeSettled i ok =>
    simp only [step, deliveredHandles]
    split
    · simp
    · rename_i w hw
      rw [occ_resume]
      simp [occ, inflightCount_eraseIdx h s.inflight i w hw]
      omega
  | writeSettledThrowing i ok a n => simp [channelThrows] at hn

theorem deliveredHandles_cons_count (h : Handle) (e : Event) (es : List Event) :
    (deliveredHandles (e :: es)).count h
      = (deliveredHandles [e]).count h + (deliveredHandles es).count h := by
  cases e <;> (simp [deliveredHandles, List.count_cons]; try omega)

theorem occ_run (h : Handle) (evs : List Event) (s : State)
    (hn : ∀ e ∈ evs, channelThrows e = false) :
    occ h (run s evs) = occ h s + (deliveredHandles evs).count h := by
  induction evs generalizing s with
  | nil => simp [run, deliveredHandles]
  | cons e es ih =>
    rw [run, ih (step s e) (fun x hx => hn x (List.mem_cons_of_mem e hx)),
      occ_step h s e (hn e (List.mem_cons_self e es)), deliveredHandles_cons_count h e es]
    omega

@[simp] theorem finallyBlock_buffer (rc : Nat) (s : State) :
    (finallyBlock rc s).buffer = s.buffer := by
  unfold finallyBlock; split <;> rfl

@[simp] theorem finallyBlock_pendingMessages (rc : Nat) (s : State) :
    (finallyBlock rc s).pendingMessages = s.pendingMessages := by
  unfold finallyBlock; split <;> rfl

@[simp] theorem finallyBlock_timer (rc : Nat) (s : State) :
    (finallyBlock rc s).timer = s.timer := by
  unfold finallyBlock; split <;> rfl

@[simp] theorem finallyBlock_inflight (rc : Nat) (s : State) :
    (finallyBlock rc s).inflight = s.inflight := by
  unfold finallyBlock; split <;> rfl

@[simp] theorem finallyBlock_retryTimers (rc : Nat) (s : State) :
    (finallyBlock rc s).retryTimers = s.retryTimers := by
  unfold finallyBlock; split <;> rfl

@[simp] theorem finallyBlock_writes (rc : Nat) (s : State) :
    (finallyBlock rc s).writes = s.writes := by
  unfold finallyBlock; split <;> rfl

@[simp] theorem finallyBlock_acked (rc : Nat) (s : State) :
    (finallyBlock rc s).acked = s.acked := by
  unfold finallyBlock; split <;> rfl

@[simp] theorem finallyBlock_nacked (rc : Nat) (s : State) :
    (finallyBlock rc s).nacked = s.nacked := by
  unfold finallyBlock; split <;> rfl

@[simp] theorem finallyBlock_flushArmed (rc : Nat) (s : State) :
    (finallyBlock rc s).flushArmed = s.flushArmed := by
  unfold finallyBlock; split <;> rfl

@[simp] theorem finallyBlock_flushCleared (rc : Nat) (s : State) :
    (finallyBlock rc s).flushCleared = s.flushCleared := by
  unfold finallyBlock; split <;> rfl

@[simp] theorem finallyBlock_retryDelays (rc : Nat) (s : State) :
    (finallyBlock rc s).retryDelays = s.retryDelays := by
  unfold finallyBlock; split <;> rfl

theorem resume_timer (w : Write) (ok : Bool) (a n : Option Nat) (s : State) :
    (resume w ok a n s).timer = s.timer := by
  unfold resume
  cases ok <;> split_ifs <;> simp

theorem resume_writes (w : Write) (ok : Bool) (a n : Option Nat) (s : State) :
    (resume w ok a n s).writes = s.writes := by
  unfold resume
  cases ok <;> split_ifs <;> simp

theorem resume_flushArmed (w : Write) (ok : Bool) (a n : Option Nat) (s : State) :
    (resume w ok a n s).flushArmed = s.flushArmed := by
  unfold resume
  cases ok <;> split_ifs <;> simp

theorem resume_flushCleared (w : Write) (ok : Bool) (a n : Option Nat) (s : State) :
    (resume w ok a n s).flushCleared = s.flushCleared := by
  unfold resume
  cases ok <;> split_ifs <;> simp

theorem resume_inflight (w : Write) (ok : Bool) (a n : Option Nat) (s : State) :
    (resume w ok a n s).inflight = s.inflight := by
  unfold resume
  cases ok <;> split_ifs <;> simp

theorem resume_buffer (w : Write) (ok : Bool) (a n : Option Nat) (s : State) :
    (resume w ok a n s).buffer = s.buffer ∨
      (resume w ok a n s).buffer = w.batchToProcess ++ s.buffer := by
  unfold resume
  cases ok <;> split_ifs <;> simp

theorem processBatch_busy (rc : Nat) (s : State) (h : s.isProcessing = true) :
    processBatch rc s = s := by
  simp [processBatch, h]

theorem step_quiet_busy (s : State) (e : Event) (hp : s.isProcessing = true)
    (hq : quiet e = true) :
    (step s e).isProcessing = true ∧
    (step s e).buffer = s.buffer ++ arrivedReadings [e] ∧
    (step s e).pendingMessages = s.pendingMessages ++ arrivedHandles [e] ∧
    (step s e).inflight = s.inflight ∧
    (step s e).retryTimers = s.retryTimers ∧
    (step s e).writes = s.writes ∧
    (step s e).acked = s.acked := by
  cases e with
  | deliver msg content =>
    cases content with
    | none => simp [step, arrivedReadings, arrivedHandles, hp]
    | some data =>
      simp only [step, onMessage, arrivedReadings, arrivedHandles]
      split <;> split <;> simp [processBatch_busy, hp]
  | cancelled => simp [step, arrivedReadings, arrivedHandles, hp]
  | flushTimeout =>
    simp only [step, arrivedReadings, arrivedHandles]
    split <;> simp [processBatch_busy, hp]
  | retryTimeout i => simp [quiet] at hq
  | writeSettled i ok => simp [quiet] at hq
  | writeSettledThrowing i ok a n => simp [quiet] at hq

theorem arrivedReadings_cons (e : Event) (es : List Event) :
    arrivedReadings (e :: es) = arrivedReadings [e] ++ arrivedReadings es := by
  cases e with
  | deliver msg content => cases content <;> simp [arrivedReadings]
  | _ => simp [arrivedReadings]

theorem arrivedHandles_cons (e : Event) (es : List Event) :
    arrivedHandles (e :: es) = arrivedHandles [e] ++ arrivedHandles es := by
  cases e with
  | deliver msg content => cases content <;> simp [arrivedHandles]
  | _ => simp [arrivedHandles]

theorem run_quiet_busy (evs : List Event) (s : State) (hp : s.isProcessing = true)
    (hq : ∀ e ∈ evs, quiet e = true) :
    (run s evs).isProcessing = true ∧
    (run s evs).buffer = s.buffer ++ arrivedReadings evs ∧
    (run s evs).pendingMessages = s.pendingMessages ++ arrivedHandles evs ∧
    (run s evs).inflight = s.inflight ∧
    (run s evs).retryTimers = s.retryTimers ∧
    (run s evs).writes = s.writes ∧
    (run s evs).acked = s.acked := by
  induction evs generalizing s with
  | nil => simp [run, arrivedReadings, arrivedHandles, hp]
  | cons e es ih =>
    have hs := step_quiet_busy s e hp (hq e (List.mem_cons_self e es))
    have hr := ih (step s e) hs.1 (fun x hx => hq x (List.mem_cons_of_mem e hx))
    rw [run, arrivedReadings_cons e es, arrivedHandles_cons e es]
    obtain ⟨h1, h2, h3, h4, h5, h6, h7⟩ := hs
    obtain ⟨r1, r2, r3, r4, r5, r6, r7⟩ := hr
    refine ⟨r1, ?_, ?_, ?_, ?_, ?_, ?_⟩
    · rw [r2, h2, List.append_assoc]
    · rw [r3, h3, List.append_assoc]
    · rw [r4, h4]
    · rw [r5, h5]
    · rw [r6, h6]
    · rw [r7, h7]

theorem run_append (s : State) (xs ys : List Event) :
    run s (xs ++ ys) = run (run s xs) ys := by
  induction xs generalizing s with
  | nil => rfl
  | cons x xs ih => simp [run, ih]

theorem processBatch_cases (rc : Nat) (s : State) :
    processBatch rc s = s ∨
    (s.isProcessing = false ∧ s.buffer ≠ [] ∧
      processBatch rc s =
        { s with
          isProcessing := true
          buffer := []
          pendingMessages := []
          timer := TimerSlot.null
          flushCleared := if s.timer = TimerSlot.null then s.flushCleared else s.flushCleared + 1
          inflight := s.inflight ++ [⟨s.buffer, s.pendingMessages, rc⟩]
          writes := s.writes ++ [⟨s.buffer, s.pendingMessages, rc⟩] }) := by
  unfold processBatch
  by_cases hp : s.isProcessing = true
  · left; simp [hp]
  · by_cases hb : s.buffer.length = 0
    · left; simp [hb]
    · right
      have hb2 : s.buffer ≠ [] := by simpa using hb
      simp [hp, hb, hb2]

theorem processBatch_timerTracksBuffer (rc : Nat) (s : State) (h : timerTracksBuffer s) :
    timerTracksBuffer (processBatch rc s) := by
  rcases processBatch_cases rc s with hc | ⟨_, _, hc⟩
  · rw [hc]; exact h
  · rw [hc]; intro _; rfl

theorem step_timerTracksBuffer (s : State) (e : Event) (h : timerTracksBuffer s) :
    timerTracksBuffer (step s e) := by
  cases e with
  | deliver msg content =>
    cases content with
    | none => exact h
    | some data =>
      simp only [step, onMessage]
      have key : ∀ s2 : State, s2.buffer ≠ [] →
          timerTracksBuffer (if s2.buffer.length ≥ BATCH_SIZE then processBatch 0 s2 else s2) := by
        intro s2 h2
        split
        · exact processBatch_timerTracksBuffer 0 s2 (fun hb => absurd hb h2)
        · exact fun hb => absurd hb h2
      apply key
      split <;> simp
  | cancelled => exact h
  | flushTimeout =>
    simp only [step]
    split
    · rename_i ha
      apply processBatch_timerTracksBuffer
      intro hb
      have := h hb
      rw [ha] at this
      cases this
    · exact h
  | retryTimeout i =>
    simp only [step]
    split
    · exact h
    · apply processBatch_timerTracksBuffer
      exact h
  | writeSettled i ok =>
    simp only [step]
    split
    · exact h
    · rename_i w hw
      unfold timerTracksBuffer at *
      intro hb
      rw [resume_timer]
      rcases resume_buffer w ok none none { s with inflight := s.inflight.eraseIdx i }
        with hc | hc
      · rw [hc] at hb; exact h hb
      · rw [hc] at hb
        simp at hb
        exact h hb.2
  | writeSettledThrowing i ok a n =>
    simp only [step]
    split
    · exact h
    · rename_i w hw
      unfold timerTracksBuffer at *
      intro hb
      rw [resume_timer]
      rcases resume_buffer w ok a n { s with inflight := s.inflight.eraseIdx i } with hc | hc
      · rw [hc] at hb; exact h hb
      · rw [hc] at hb
        simp at hb
        exact h hb.2

theorem run_timerTracksBuffer (evs : List Event) (s : State) (h : timerTracksBuffer s) :
    timerTracksBuffer (run s evs) := by
  induction evs generalizing s with
  | nil => exact h
  | cons e es ih => exact ih (step s e) (step_timerTracksBuffer s e h)

theorem step_flush_timer (s : State) (e : Event) (h : timerTracksBuffer s) :
    ((step s e).flushArmed = s.flushArmed + 1 ↔
        isWellFormedDelivery e = true ∧ s.timer = TimerSlot.null) ∧
    ((step s e).flushArmed = s.flushArmed ∨ (step s e).flushArmed = s.flushArmed + 1) ∧
    (isWellFormedDelivery e = true → s.buffer = [] →
        (step s e).flushArmed = s.flushArmed + 1) ∧
    ((step s e).flushCleared = s.flushCleared + 1 ↔
        (step s e).writes.length = s.writes.length + 1 ∧
          (s.timer ≠ TimerSlot.null ∨ isWellFormedDelivery e = true)) ∧
    ((step s e).flushCleared = s.flushCleared ∨ (step s e).flushCleared = s.flushCleared + 1) ∧
    ((step s e).writes.length = s.writes.length + 1 →
        (step s e).timer = TimerSlot.null ∧ (step s e).buffer = []) ∧
    ((step s e).writes.length = s.writes.length ∨
        (step s e).writes.length = s.writes.length + 1) := by
  unfold timerTracksBuffer at h
  cases e with
  | deliver msg content =>
    cases content with
    | none => simp [step, isWellFormedDelivery]
    | some data =>
      simp only [step, onMessage, isWellFormedDelivery, processBatch]
      by_cases ht : s.timer = TimerSlot.null <;> by_cases hp : s.isProcessing = true <;>
        by_cases hl : s.buffer.length + 1 ≥ BATCH_SIZE <;>
        simp [ht, hp, hl] <;> simp_all
  | cancelled => simp [step, isWellFormedDelivery]
  | flushTimeout =>
    simp only [step, isWellFormedDelivery, processBatch]
    by_cases ht : s.timer = TimerSlot.armed <;> by_cases hp : s.isProcessing = true <;>
      by_cases hl : s.buffer.length = 0 <;>
      simp [ht, hp, hl]
  | retryTimeout i =>
    simp only [step, isWellFormedDelivery, processBatch]
    cases hi : s.retryTimers[i]? with
    | none => simp
    | some t =>
      by_cases ht : s.timer = TimerSlot.null <;>
        by_cases hl : s.buffer.length = 0 <;>
        simp [ht, hl]
  | writeSettled i ok =>
    simp only [step, isWellFormedDelivery]
    cases hi : s.inflight[i]? with
    | none => simp
    | some w => simp [resume_flushArmed, resume_flushCleared, resume_writes]
  | writeSettledThrowing i ok a n =>
    simp only [step, isWellFormedDelivery]
    cases hi : s.inflight[i]? with
    | none => simp
    | some w => simp [resume_flushArmed, resume_flushCleared, resume_writes]

theorem deliverThenCommit_full (s : State) (msg : Handle) (data : Reading)
    (hp : s.isProcessing = false) (hi : s.inflight = [])
    (hfull : s.buffer.length + 1 ≥ BATCH_SIZE) :
    deliverThenCommit s (msg, data)
      = { s with
          buffer := []
          pendingMessages := []
          timer := TimerSlot.null
          isProcessing := false
          inflight := []
          writes := s.writes ++ [⟨s.buffer ++ [data], s.pendingMessages ++ [msg], 0⟩]
          acked := s.acked ++ (s.pendingMessages ++ [msg])
          flushArmed := if s.timer = TimerSlot.null then s.flushArmed + 1 else s.flushArmed
          flushCleared := s.flushCleared + 1 } := by
  by_cases htn : s.timer = TimerSlot.null <;>
    simp [deliverThenCommit, step, onMessage, processBatch, resume_none, finallyBlock, hp, hi,
      hfull, htn]

theorem deliverThenCommit_below (s : State) (msg : Handle) (data : Reading)
    (hi : s.inflight = []) (hlt : s.buffer.length + 1 < BATCH_SIZE)
    (ht0 : s.buffer = [] → s.timer = TimerSlot.null)
    (ht1 : s.buffer ≠ [] → s.timer = TimerSlot.armed) :
    deliverThenCommit s (msg, data)
      = { s with
          buffer := s.buffer ++ [data]
          pendingMessages := s.pendingMessages ++ [msg]
          timer := TimerSlot.armed
          flushArmed := if s.timer = TimerSlot.null then s.flushArmed + 1 else s.flushArmed } := by
  have hfull : ¬ s.buffer.length + 1 ≥ BATCH_SIZE := by omega
  by_cases hbe : s.buffer = []
  · simp [deliverThenCommit, step, onMessage, hi, hfull, ht0 hbe]
  · simp [deliverThenCommit, step, onMessage, hi, hfull, ht1 hbe]

theorem deliverCommitted_spec (ms : List (Handle × Reading)) (s : State)
    (hp : s.isProcessing = false) (hi : s.inflight = [])
    (hk : s.buffer.length < BATCH_SIZE) (hm : s.pendingMessages.length = s.buffer.length)
    (ht0 : s.buffer = [] → s.timer = TimerSlot.null)
    (ht1 : s.buffer ≠ [] → s.timer = TimerSlot.armed) :
    ∃ new : List Write,
      (deliverCommitted s ms).writes = s.writes ++ new ∧
      new.length = (s.buffer.length + ms.length) / BATCH_SIZE ∧
      (∀ w ∈ new, w.batchToProcess.length = BATCH_SIZE ∧ w.messagesToAck.length = BATCH_SIZE ∧
        w.retryCount = 0) ∧
      s.buffer ++ ms.map Prod.snd
        = (new.map Write.batchToProcess).flatten ++ (deliverCommitted s ms).buffer ∧
      s.pendingMessages ++ ms.map Prod.fst
        = (new.map Write.messagesToAck).flatten ++ (deliverCommitted s ms).pendingMessages ∧
      (deliverCommitted s ms).buffer.length = (s.buffer.length + ms.length) % BATCH_SIZE ∧
      (deliverCommitted s ms).acked = s.acked ++ (new.map Write.messagesToAck).flatten ∧
      (deliverCommitted s ms).nacked = s.nacked ∧
      (deliverCommitted s ms).inflight = [] ∧
      (deliverCommitted s ms).retryTimers = s.retryTimers ∧
      (deliverCommitted s ms).isProcessing = false ∧
      (deliverCommitted s ms).flushCleared = s.flushCleared + new.length ∧
      ((deliverCommitted s ms).buffer = [] → (deliverCommitted s ms).timer = TimerSlot.null) ∧
      ((deliverCommitted s ms).buffer ≠ [] → (deliverCommitted s ms).timer = TimerSlot.armed) := by
  induction ms generalizing s with
  | nil =>
    refine ⟨[], ?_⟩
    have : s.buffer.length % BATCH_SIZE = s.buffer.length := Nat.mod_eq_of_lt hk
    have : s.buffer.length / BATCH_SIZE = 0 := Nat.div_eq_of_lt hk
    simp [deliverCommitted, *]
    exact ⟨ht0, ht1⟩
  | cons m ms ih =>
    obtain ⟨msg, data⟩ := m
    by_cases hfull : s.buffer.length + 1 ≥ BATCH_SIZE
    · -- the size trigger captures the batch and its write succeeds
      have hs2 := deliverThenCommit_full s msg data hp hi hfull
      have h9 : s.buffer.length = 9 := by unfold BATCH_SIZE at hk hfull; omega
      obtain ⟨new, h1, h2, h3, h4, h5, h6, h7, h8, h9a, h10, h11, h12, h13, h14⟩ :=
        ih (deliverThenCommit s (msg, data)) (by rw [hs2]) (by rw [hs2])
          (by rw [hs2]; simp [BATCH_SIZE]) (by rw [hs2]; rfl) (by rw [hs2]; simp)
          (by rw [hs2]; simp)
      have e1 : (deliverThenCommit s (msg, data)).writes
          = s.writes ++ [⟨s.buffer ++ [data], s.pendingMessages ++ [msg], 0⟩] := by rw [hs2]
      have e2 : (deliverThenCommit s (msg, data)).buffer = [] := by rw [hs2]
      have e3 : (deliverThenCommit s (msg, data)).pendingMessages = [] := by rw [hs2]
      have e4 : (deliverThenCommit s (msg, data)).acked
          = s.acked ++ (s.pendingMessages ++ [msg]) := by rw [hs2]
      have e5 : (deliverThenCommit s (msg, data)).nacked = s.nacked := by rw [hs2]
      have e6 : (deliverThenCommit s (msg, data)).retryTimers = s.retryTimers := by rw [hs2]
      have e7 : (deliverThenCommit s (msg, data)).flushCleared = s.flushCleared + 1 := by
        rw [hs2]
      rw [e1] at h1
      rw [e2] at h2 h4 h6
      rw [e3] at h5
      rw [e4] at h7
      rw [e5] at h8
      rw [e6] at h10
      rw [e7] at h12
      simp only [List.length_nil, Nat.zero_add, List.nil_append] at h2 h4 h5 h6
      simp only [deliverCommitted]
      refine ⟨⟨s.buffer ++ [data], s.pendingMessages ++ [msg], 0⟩ :: new, ?_⟩
      refine ⟨?_, ?_, ?_, ?_, ?_, ?_, ?_, ?_, ?_, ?_, ?_, ?_, ?_, ?_⟩
      · rw [h1]; simp
      · simp only [List.length_cons, h2, BATCH_SIZE, h9]; omega
      · intro w hw
        rcases List.mem_cons.mp hw with rfl | hw
        · simp [h9, hm, BATCH_SIZE]
        · exact h3 w hw
      · simp [← h4]
      · simp [← h5]
      · rw [h6]; simp only [List.length_cons, BATCH_SIZE, h9]; omega
      · rw [h7]; simp
      · rw [h8]
      · exact h9a
      · rw [h10]
      · exact h11
      · rw [h12]; simp only [List.length_cons]; omega
      · exact h13
      · exact h14
    · -- the buffer stays below the batch size
      have hlt : s.buffer.length + 1 < BATCH_SIZE := by omega
      have hs2 := deliverThenCommit_below s msg data hi hlt ht0 ht1
      obtain ⟨new, h1, h2, h3, h4, h5, h6, h7, h8, h9a, h10, h11, h12, h13, h14⟩ :=
        ih (deliverThenCommit s (msg, data)) (by rw [hs2]; exact hp) (by rw [hs2]; exact hi)
          (by rw [hs2]; simpa using hlt) (by rw [hs2]; simpa using hm) (by rw [hs2]; simp)
          (by rw [hs2]; simp)
      have e1 : (deliverThenCommit s (msg, data)).writes = s.writes := by rw [hs2]
      have e2 : (deliverThenCommit s (msg, data)).buffer = s.buffer ++ [data] := by rw [hs2]
      have e3 : (deliverThenCommit s (msg, data)).pendingMessages
          = s.pendingMessages ++ [msg] := by rw [hs2]
      have e4 : (deliverThenCommit s (msg, data)).acked = s.acked := by rw [hs2]
      have e5 : (deliverThenCommit s (msg, data)).nacked = s.nacked := by rw [hs2]
      have e6 : (deliverThenCommit s (msg, data)).retryTimers = s.retryTimers := by rw [hs2]
      have e7 : (deliverThenCommit s (msg, data)).flushCleared = s.flushCleared := by rw [hs2]
      rw [e1] at h1
      rw [e2] at h2 h4 h6
      rw [e3] at h5
      rw [e4] at h7
      rw [e5] at h8
      rw [e6] at h10
      rw [e7] at h12
      simp only [List.length_append, List.length_singleton] at h2 h6
      simp only [deliverCommitted]
      refine ⟨new, ?_⟩
      refine ⟨?_, ?_, ?_, ?_, ?_, ?_, ?_, ?_, ?_, ?_, ?_, ?_, ?_, ?_⟩
      · rw [h1]
      · rw [h2]; simp only [List.length_cons]; congr 1; omega
      · exact h3
      · rw [← h4]; simp
      · rw [← h5]; simp
      · rw [h6]; simp only [List.length_cons]; congr 1; omega
      · rw [h7]
      · rw [h8]
      · exact h9a
      · rw [h10]
      · exact h11
      · rw [h12]
      · exact h13
      · exact h14

theorem attempts_succ (b : List Reading) (p : List Handle) (n : Nat) :
    attempts b p (n + 1) = attempts b p n ++ [⟨b, p, n⟩] := by
  simp [attempts, List.range_succ]

theorem cyclePhase_start (s0 : State) (hp : s0.isProcessing = false) (hb : s0.buffer ≠ [])
    (hi : s0.inflight = []) (ht : s0.retryTimers = []) :
    cyclePhase s0 (processBatch 0 s0) := by
  have hlen : ¬ s0.buffer.length = 0 := by simpa using hb
  refine ⟨?_, ?_, 0, Nat.zero_le _, ?_, Or.inl ?_⟩ <;>
    simp [processBatch, hp, hlen, hi, ht, attempts, List.range_succ]

theorem cyclePhase_step (s0 s : State) (e : Event) (hb : s0.buffer ≠ [])
    (h : cyclePhase s0 s) (hf : failureTurn e = true) (he : enabled s e = true) :
    cyclePhase s0 (step s e) := by
  obtain ⟨hack, htim, k, hk, hw, hph⟩ := h
  have hlen : ¬ s0.buffer.length = 0 := by simpa using hb
  cases e with
  | deliver msg content => simp [failureTurn] at hf
  | cancelled => exact ⟨hack, htim, k, hk, hw, hph⟩
  | flushTimeout => simp [enabled, htim] at he
  | writeSettledThrowing i ok a n => simp [failureTurn] at hf
  | retryTimeout i =>
    rcases hph with ⟨h1, h2, _⟩ | ⟨hlt, h1, h2, h3, h4, h5⟩ | ⟨_, h1, h2, _⟩
    · simp [enabled, h2] at he
    · simp only [enabled, h2, List.length_singleton, decide_eq_true_eq] at he
      have hi0 : i = 0 := by omega
      subst hi0
      refine ⟨?_, ?_, k + 1, hlt, ?_, Or.inl ?_⟩ <;>
        simp [step, h2, processBatch, h3, h4, h5, h1, hlen, hb, hack, hw, attempts_succ]
    · simp [enabled, h2] at he
  | writeSettled i ok =>
    have hok : ok = false := by simpa [failureTurn] using hf
    subst hok
    rcases hph with ⟨h1, h2, h3, h4, h5, h6⟩ | ⟨_, h1, _⟩ | ⟨_, h1, _⟩
    · simp only [enabled, h1, List.length_singleton, decide_eq_true_eq] at he
      have hi0 : i = 0 := by omega
      subst hi0
      by_cases hlt : k < MAX_RETRIES
      · refine ⟨?_, ?_, k, hk, ?_, Or.inr (Or.inl ?_)⟩ <;>
          simp [step, h1, resume_none, hlt, h2, h3, h4, h5, hack, htim, hw]
      · have hkm : k = MAX_RETRIES := by omega
        refine ⟨?_, ?_, k, hk, ?_, Or.inr (Or.inr ?_)⟩ <;>
          simp [step, h1, resume_none, hlt, h2, h3, h4, h5, hack, htim, hw, hkm, finallyBlock]
    · simp [enabled, h1] at he
    · simp [enabled, h1] at he

theorem cyclePhase_run (s0 : State) (hb : s0.buffer ≠ []) (evs : List Event) (s : State)
    (h : cyclePhase s0 s) (hall : ∀ e ∈ evs, failureTurn e = true)
    (hf : feasible s evs = true) :
    cyclePhase s0 (run s evs) := by
  induction evs generalizing s with
  | nil => exact h
  | cons e es ih =>
    simp only [feasible, Bool.and_eq_true] at hf
    exact ih (step s e)
      (cyclePhase_step s0 s e hb h (hall e (List.mem_cons_self e es)) hf.1)
      (fun x hx => hall x (List.mem_cons_of_mem e hx)) hf.2

theorem commitSchedule_run (ms : List (Handle × Reading)) (s : State) :
    run s (commitSchedule s ms) = deliverCommitted s ms := by
  induction ms generalizing s with
  | nil => rfl
  | cons m ms ih =>
    simp only [commitSchedule, deliverCommitted]
    split
    · rename_i he
      simp only [run]
      rw [← ih]
      simp [deliverThenCommit, he]
    · rename_i he
      simp only [run]
      rw [← ih]
      simp [deliverThenCommit, he]

theorem commitSchedule_feasible (ms : List (Handle × Reading)) (s : State) :
    feasible s (commitSchedule s ms) = true := by
  induction ms generalizing s with
  | nil => rfl
  | cons m ms ih =>
    simp only [commitSchedule]
    split
    · rename_i he
      simp only [feasible, enabled, Bool.true_and]
      have := ih (deliverThenCommit s m)
      simpa [deliverThenCommit, he] using this
    · rename_i he
      have hpos : 0 < (step s (Event.deliver m.1 (some m.2))).inflight.length := by
        cases hl : (step s (Event.deliver m.1 (some m.2))).inflight with
        | nil => simp [hl] at he
        | cons x xs => simp
      simp only [feasible, enabled, Bool.true_and, hpos, decide_True]
      have := ih (deliverThenCommit s m)
      simpa [deliverThenCommit, he] using this

theorem commitSchedule_arrived (ms : List (Handle × Reading)) (s : State) :
    arrivedHandles (commitSchedule s ms) = ms.map Prod.fst ∧
    arrivedReadings (commitSchedule s ms) = ms.map Prod.snd := by
  induction ms generalizing s with
  | nil => exact ⟨rfl, rfl⟩
  | cons m ms ih =>
    simp only [commitSchedule]
    split <;> simp [arrivedHandles, arrivedReadings, ih (deliverThenCommit s m)]

/-- When no call on the channel throws, then in every execution whose
delivered messages have pairwise distinct handles no handle is passed to
`channel.ack` or `channel.nack` more than once in total. -/
theorem ack_nack_at_most_once_of_no_throw (evs : List Event)
    (hn : ∀ e ∈ evs, channelThrows e = false) (hd : (deliveredHandles evs).Nodup) :
    ((run State.init evs).acked ++ (run State.init evs).nacked.map Prod.fst).Nodup := by
  rw [List.nodup_iff_count_le_one]
  intro h
  have h1 := occ_run h evs State.init hn
  have h2 : (deliveredHandles evs).count h ≤ 1 := List.nodup_iff_count_le_one.mp hd h
  have h3 : occ h State.init = 0 := by simp [occ, State.init, inflightCount]
  rw [List.count_append]
  unfold occ at h1 h3
  omega

/-- A write that fails with attempt counter `a < MAX_RETRIES` schedules its
retry after exactly `RETRY_DELAY * 2 ^ a` ms, and the retry runs with counter
`a + 1`. -/
theorem retry_delay_formula (s : State) (i : Nat) (w : Write)
    (hw : s.inflight[i]? = some w) (hr : w.retryCount < MAX_RETRIES) :
    (step s (Event.writeSettled i false)).retryTimers
        = s.retryTimers ++ [⟨w.retryCount + 1, RETRY_DELAY * 2 ^ w.retryCount⟩] ∧
    (step s (Event.writeSettled i false)).retryDelays
        = s.retryDelays ++ [RETRY_DELAY * 2 ^ w.retryCount] := by
  simp [step, hw, resume_none, hr]

/-- For a batch captured with `retryCount` 0 while nothing else is pending: a
chain of failures schedules `RETRY_DELAY`, `2 * RETRY_DELAY`, `4 * RETRY_DELAY`,
and a write that fails twice and then succeeds is acknowledged by its third
attempt after `RETRY_DELAY + 2 * RETRY_DELAY` ms. -/
theorem clean_chain_delays (s0 : State) (hp : s0.isProcessing = false) (hb : s0.buffer ≠ [])
    (hi : s0.inflight = []) (ht : s0.retryTimers = []) :
    feasible (processBatch 0 s0) failCycle = true ∧
    (run (processBatch 0 s0) failCycle).inflight = [] ∧
    (run (processBatch 0 s0) failCycle).retryTimers = [] ∧
    (run (processBatch 0 s0) failCycle).retryDelays
      = s0.retryDelays ++ [RETRY_DELAY, 2 * RETRY_DELAY, 4 * RETRY_DELAY] ∧
    feasible (processBatch 0 s0) recoverCycle = true ∧
    (run (processBatch 0 s0) recoverCycle).writes = s0.writes ++
      [⟨s0.buffer, s0.pendingMessages, 0⟩, ⟨s0.buffer, s0.pendingMessages, 1⟩,
       ⟨s0.buffer, s0.pendingMessages, 2⟩] ∧
    (run (processBatch 0 s0) recoverCycle).acked = s0.acked ++ s0.pendingMessages ∧
    (run (processBatch 0 s0) recoverCycle).nacked = s0.nacked ∧
    (run (processBatch 0 s0) recoverCycle).retryDelays
      = s0.retryDelays ++ [RETRY_DELAY, 2 * RETRY_DELAY] ∧
    RETRY_DELAY + 2 * RETRY_DELAY = 15000 := by
  obtain ⟨buffer, pendingMessages, timer, isProcessing, inflight, retryTimers, writes, acked,
    nacked, flushArmed, flushCleared, retryDelays⟩ := s0
  simp only at hp hb hi ht
  subst hp hi ht
  have hlen : ¬ buffer.length = 0 := by simpa using hb
  simp [failCycle, recoverCycle, feasible, enabled, run, step, processBatch, resume_none,
    finallyBlock, MAX_RETRIES, RETRY_DELAY, hlen, hb]

/-! The claims -/

/-- C1 fails on the code: in `closedChannelTrace`, every turn of which can
occur and which delivers the distinct messages 1 and 2, the store write
succeeds each time but `channel.ack` throws, the `catch` of `processBatch`
takes that for a failed write and retries: the batch is written four times,
handle 1 is passed to `channel.ack` four times and then to `channel.nack`. -/
theorem handle_acked_again_after_ack_throws :
    feasible State.init closedChannelTrace = true ∧
    deliveredHandles closedChannelTrace = [1, 2] ∧
    (run State.init closedChannelTrace).writes
      = [⟨[1, 2], [1, 2], 0⟩, ⟨[1, 2], [1, 2], 1⟩, ⟨[1, 2], [1, 2], 2⟩, ⟨[1, 2], [1, 2], 3⟩] ∧
    (run State.init closedChannelTrace).acked = [1, 1, 1, 1] ∧
    (run State.init closedChannelTrace).nacked = [(1, false, false)] ∧
    ¬ ((run State.init closedChannelTrace).acked
        ++ (run State.init closedChannelTrace).nacked.map Prod.fst).Nodup := by
  decide

/-- C2 fails on the code: after `overlapTrace`, every turn of which can occur,
two store writes are pending at once, the second started by the retry timeout
while the first had not settled. -/
theorem overlapping_writes_reachable :
    feasible State.init overlapTrace = true ∧
    (run State.init overlapTrace).inflight =
      [⟨[1, 2, 3, 4, 5, 6, 7, 8, 9, 10, 11], [1, 2, 3, 4, 5, 6, 7, 8, 9, 10, 11], 0⟩,
       ⟨[12], [12], 1⟩] := by
  decide

/-- C3 fails on the code at `retryCount = 0`: right after the first failure of
a write the retry timeout is pending but `isProcessing` is already false, and
the `processBatch` call of the next delivery (size trigger) captures a batch
while that retry timeout is still pending. -/
theorem flag_reset_before_first_retry :
    feasible State.init earlyResetTrace = true ∧
    (run State.init earlyResetTrace).retryTimers = [⟨1, 5000⟩] ∧
    (run State.init earlyResetTrace).isProcessing = false ∧
    (run State.init earlyResetTrace).writes.length = 1 ∧
    (step (run State.init earlyResetTrace) (wellFormed 11)).writes.length = 2 ∧
    (step (run State.init earlyResetTrace) (wellFormed 11)).retryTimers = [⟨1, 5000⟩] := by
  decide

/-- C4 as stated fails: a batch whose write fails on every attempt is written
four times, more than `MAX_RETRIES`. -/
theorem exhausted_batch_written_four_times :
    feasible State.init exhaustTrace = true ∧
    (run State.init exhaustTrace).writes
      = [⟨[1], [1], 0⟩, ⟨[1], [1], 1⟩, ⟨[1], [1], 2⟩, ⟨[1], [1], 3⟩] ∧
    ¬ ((run State.init exhaustTrace).writes.length ≤ MAX_RETRIES) := by
  decide

/-- C4 amended: a batch is captured with `retryCount` 0 while no other write
and no retry timeout is pending; then in every sequence of turns that can occur
and in which no message is delivered, no write succeeds and no call on the
channel throws, every write issued presents the readings and handles of that
batch, with `retryCount` 0, 1, ..., so the batch is written at most
`MAX_RETRIES + 1 = 4` times, and nothing is acknowledged; nothing is rejected
while a write or a retry timeout is pending; once none is pending the batch has
been written `MAX_RETRIES + 1` times, every handle of it has been rejected with
`nack(msg, false, false)`, the buffer and `pendingMessages` are empty,
`isProcessing` is false and the timer is null.  `failCycle` is such a sequence
and it ends with nothing pending. -/
theorem exhausted_batch_cycle (s0 : State) (evs : List Event)
    (hp : s0.isProcessing = false) (hb : s0.buffer ≠ []) (hi : s0.inflight = [])
    (ht : s0.retryTimers = []) (hall : ∀ e ∈ evs, failureTurn e = true)
    (hf : feasible (processBatch 0 s0) evs = true) :
    (∃ k, k ≤ MAX_RETRIES ∧
      (run (processBatch 0 s0) evs).writes
        = s0.writes ++ attempts s0.buffer s0.pendingMessages (k + 1)) ∧
    (run (processBatch 0 s0) evs).writes.length ≤ s0.writes.length + (MAX_RETRIES + 1) ∧
    (run (processBatch 0 s0) evs).acked = s0.acked ∧
    (((run (processBatch 0 s0) evs).inflight ≠ [] ∨
        (run (processBatch 0 s0) evs).retryTimers ≠ []) →
      (run (processBatch 0 s0) evs).nacked = s0.nacked) ∧
    ((run (processBatch 0 s0) evs).inflight = [] →
      (run (processBatch 0 s0) evs).retryTimers = [] →
      (run (processBatch 0 s0) evs).writes
        = s0.writes ++ attempts s0.buffer s0.pendingMessages (MAX_RETRIES + 1) ∧
      (run (processBatch 0 s0) evs).nacked
        = s0.nacked ++ s0.pendingMessages.map (fun m => (m, false, false)) ∧
      (run (processBatch 0 s0) evs).buffer = [] ∧
      (run (processBatch 0 s0) evs).pendingMessages = [] ∧
      (run (processBatch 0 s0) evs).isProcessing = false ∧
      (run (processBatch 0 s0) evs).timer = TimerSlot.null) ∧
    ((∀ e ∈ failCycle, failureTurn e = true) ∧
      feasible (processBatch 0 s0) failCycle = true ∧
      (run (processBatch 0 s0) failCycle).inflight = [] ∧
      (run (processBatch 0 s0) failCycle).retryTimers = []) := by
  have hph := cyclePhase_run s0 hb evs (processBatch 0 s0) (cyclePhase_start s0 hp hb hi ht)
    hall hf
  obtain ⟨hack, htim, k, hk, hw, hcase⟩ := hph
  have hclean := clean_chain_delays s0 hp hb hi ht
  refine ⟨⟨k, hk, hw⟩, ?_, hack, ?_, ?_, by decide, hclean.1, hclean.2.1, hclean.2.2.1⟩
  · rw [hw]
    simp only [List.length_append, attempts, List.length_map, List.length_range]
    omega
  · intro hor
    rcases hcase with ⟨_, _, _, _, h5, _⟩ | ⟨_, _, _, _, _, h5⟩ | ⟨_, h1, h2, _⟩
    · exact h5
    · exact h5
    · rcases hor with hor | hor
      · exact absurd h1 hor
      · exact absurd h2 hor
  · intro hin hrt
    rcases hcase with ⟨h1, _⟩ | ⟨_, _, h2, _⟩ | ⟨hkm, _, _, h3, h4, h5, h6⟩
    · rw [h1] at hin; cases hin
    · rw [h2] at hrt; cases hrt
    · subst hkm
      exact ⟨hw, h5, h3, h4, h6, htim⟩

/-- C4 amended, at a buffer holding messages 1 and 2 and the whole `failCycle`. -/
theorem exhausted_batch_cycle_witness :
    (twoBuffered.isProcessing = false ∧ twoBuffered.buffer ≠ [] ∧ twoBuffered.inflight = [] ∧
      twoBuffered.retryTimers = [] ∧ (∀ e ∈ failCycle, failureTurn e = true) ∧
      feasible (processBatch 0 twoBuffered) failCycle = true) ∧
    (run (processBatch 0 twoBuffered) failCycle).writes.length
      ≤ twoBuffered.writes.length + (MAX_RETRIES + 1) ∧
    (run (processBatch 0 twoBuffered) failCycle).acked = twoBuffered.acked :=
  ⟨by decide,
   (exhausted_batch_cycle twoBuffered failCycle (by decide) (by decide) (by decide) (by decide)
      (by decide) (by decide)).2.1,
   (exhausted_batch_cycle twoBuffered failCycle (by decide) (by decide) (by decide) (by decide)
      (by decide) (by decide)).2.2.1⟩

/-- C5 as stated fails: the write with `retryCount` 1 of message 1 fails,
message 2 is delivered during the retry delay, and the write issued by the
retry presents messages 1 and 2, not the failed batch alone. -/
theorem retry_write_includes_new_arrivals :
    feasible State.init regrowTrace = true ∧
    (run State.init regrowTrace).writes
      = [⟨[1], [1], 0⟩, ⟨[1], [1], 1⟩, ⟨[1, 2], [1, 2], 2⟩] ∧
    (⟨[1, 2], [1, 2], 2⟩ : Write).batchToProcess ≠ (⟨[1], [1], 1⟩ : Write).batchToProcess := by
  decide

/-- C5 amended: the only pending write `w` (a non-empty batch, as every
captured batch is) fails with `1 ≤ retryCount < MAX_RETRIES` while
`isProcessing` is true and no retry timeout is pending; then whatever is
delivered, well-formed or not, and whether or not the flush timeout fires
before the retry timeout, the write issued by the retry presents the readings
and handles of `w` in the same order, followed by the readings and handles
that arrived since `w` was captured (those in the buffer at the failure, then
those delivered during the retry delay), in arrival order, with
`retryCount + 1`; nothing is acknowledged in between.  When none arrived it is
the batch of `w` itself. -/
theorem retry_write_extends_failed_batch (s : State) (w : Write) (evs : List Event)
    (hin : s.inflight = [w]) (hrt : s.retryTimers = []) (hp : s.isProcessing = true)
    (h1 : 1 ≤ w.retryCount) (h2 : w.retryCount < MAX_RETRIES) (hb : w.batchToProcess ≠ [])
    (hq : ∀ e ∈ evs, quiet e = true) :
    (run s (Event.writeSettled 0 false :: (evs ++ [Event.retryTimeout 0]))).writes
      = s.writes ++ [⟨w.batchToProcess ++ (s.buffer ++ arrivedReadings evs),
                      w.messagesToAck ++ (s.pendingMessages ++ arrivedHandles evs),
                      w.retryCount + 1⟩] ∧
    (run s (Event.writeSettled 0 false :: (evs ++ [Event.retryTimeout 0]))).inflight
      = [⟨w.batchToProcess ++ (s.buffer ++ arrivedReadings evs),
          w.messagesToAck ++ (s.pendingMessages ++ arrivedHandles evs),
          w.retryCount + 1⟩] ∧
    (run s (Event.writeSettled 0 false :: (evs ++ [Event.retryTimeout 0]))).acked = s.acked ∧
    (s.buffer = [] → s.pendingMessages = [] → arrivedReadings evs = [] →
      arrivedHandles evs = [] →
      (run s (Event.writeSettled 0 false :: (evs ++ [Event.retryTimeout 0]))).inflight
        = [⟨w.batchToProcess, w.messagesToAck, w.retryCount + 1⟩]) := by
  have hfin : ¬ (w.retryCount = 0 ∨ w.retryCount ≥ MAX_RETRIES) := by omega
  have hs1 : step s (Event.writeSettled 0 false)
      = { s with
          inflight := []
          buffer := w.batchToProcess ++ s.buffer
          pendingMessages := w.messagesToAck ++ s.pendingMessages
          retryTimers := [⟨w.retryCount + 1, RETRY_DELAY * 2 ^ w.retryCount⟩]
          retryDelays := s.retryDelays ++ [RETRY_DELAY * 2 ^ w.retryCount] } := by
    simp [step, hin, resume_none, h2, finallyBlock, hfin, hrt]
  rw [run, run_append]
  have f1 : (step s (Event.writeSettled 0 false)).isProcessing = true := by rw [hs1]; exact hp
  have f2 : (step s (Event.writeSettled 0 false)).buffer = w.batchToProcess ++ s.buffer := by
    rw [hs1]
  have f3 : (step s (Event.writeSettled 0 false)).pendingMessages
      = w.messagesToAck ++ s.pendingMessages := by rw [hs1]
  have f4 : (step s (Event.writeSettled 0 false)).inflight = [] := by rw [hs1]
  have f5 : (step s (Event.writeSettled 0 false)).retryTimers
      = [⟨w.retryCount + 1, RETRY_DELAY * 2 ^ w.retryCount⟩] := by rw [hs1]
  have f6 : (step s (Event.writeSettled 0 false)).writes = s.writes := by rw [hs1]
  have f7 : (step s (Event.writeSettled 0 false)).acked = s.acked := by rw [hs1]
  obtain ⟨_, r2, r3, r4, r5, r6, r7⟩ :=
    run_quiet_busy evs (step s (Event.writeSettled 0 false)) f1 hq
  rw [f2] at r2
  rw [f3] at r3
  rw [f4] at r4
  rw [f5] at r5
  rw [f6] at r6
  rw [f7] at r7
  generalize run (step s (Event.writeSettled 0 false)) evs = s2 at r2 r3 r4 r5 r6 r7 ⊢
  refine ⟨?_, ?_, ?_, ?_⟩
  · simp [run, step, r5, processBatch, r2, r3, r4, r6, r7, hb]
  · simp [run, step, r5, processBatch, r2, r3, r4, r6, r7, hb]
  · simp [run, step, r5, processBatch, r2, r3, r4, r6, r7, hb]
  · intro e1 e2 e3 e4
    simp [run, step, r5, processBatch, r2, r3, r4, r6, r7, hb, e1, e2, e3, e4]

/-- C5 amended, at the second attempt of message 1, with a well-formed
message, a malformed message and the flush timeout during the retry delay. -/
theorem retry_write_extends_failed_batch_witness :
    (secondAttemptPending.inflight = [⟨[1], [1], 1⟩] ∧ secondAttemptPending.retryTimers = [] ∧
      secondAttemptPending.isProcessing = true ∧
      (∀ e ∈ [wellFormed 2, Event.deliver 3 none, Event.flushTimeout], quiet e = true)) ∧
    (run secondAttemptPending
        (Event.writeSettled 0 false ::
          ([wellFormed 2, Event.deliver 3 none, Event.flushTimeout]
            ++ [Event.retryTimeout 0]))).inflight
      = [⟨[1, 2], [1, 2], 2⟩] :=
  ⟨by decide,
   (retry_write_extends_failed_batch secondAttemptPending ⟨[1], [1], 1⟩
      [wellFormed 2, Event.deliver 3 none, Event.flushTimeout]
      (by decide) (by decide) (by decide) (by decide) (by decide) (by decide) (by decide)).2.1⟩

/-- C6 fails on the code: after `reorderTrace`, every turn of which can occur
and which delivers messages 1 to 14 in that order, the last store write
presents message 12 before messages 1 to 11, and on its success the handles
are acknowledged in that same wrong order. -/
theorem reordered_batch_reachable :
    feasible State.init reorderTrace = true ∧
    deliveredHandles reorderTrace = [1, 2, 3, 4, 5, 6, 7, 8, 9, 10, 11, 12, 13, 14] ∧
    (run State.init reorderTrace).writes.getLast? =
      some ⟨[12, 1, 2, 3, 4, 5, 6, 7, 8, 9, 10, 11, 13, 14],
            [12, 1, 2, 3, 4, 5, 6, 7, 8, 9, 10, 11, 13, 14], 0⟩ ∧
    (run State.init reorderTrace).acked = [12, 1, 2, 3, 4, 5, 6, 7, 8, 9, 10, 11, 13, 14] := by
  decide

/-- C7 as stated fails: after a failed batch was put back in the buffer (its
capture had cleared the timer), the delivery of message 2 arms the flush timer
although the buffer was not empty before it. -/
theorem timer_armed_on_nonempty_buffer :
    feasible State.init rearmTrace = true ∧
    (run State.init rearmTrace).buffer = [1] ∧
    (step (run State.init rearmTrace) (wellFormed 2)).buffer = [1, 2] ∧
    (step (run State.init rearmTrace) (wellFormed 2)).flushArmed
      = (run State.init rearmTrace).flushArmed + 1 := by
  decide

/-- C7 amended: in every reachable state and for every turn, the flush timer
is armed by the turn exactly when the turn is the delivery of a well-formed
message and `timer` is null before it (a turn arms it at most once); every
such delivery onto an empty buffer arms it; `clearTimeout` is called by the
turn exactly when the turn captures a batch and `timer` is not null at the
capture (at most once per turn); after every capture `timer` is null and the
buffer empty; a turn captures at most one batch. -/
theorem flush_timer_lifecycle (evs : List Event) (e : Event) :
    ((step (run State.init evs) e).flushArmed = (run State.init evs).flushArmed + 1 ↔
        isWellFormedDelivery e = true ∧ (run State.init evs).timer = TimerSlot.null) ∧
    ((step (run State.init evs) e).flushArmed = (run State.init evs).flushArmed ∨
        (step (run State.init evs) e).flushArmed = (run State.init evs).flushArmed + 1) ∧
    (isWellFormedDelivery e = true → (run State.init evs).buffer = [] →
        (step (run State.init evs) e).flushArmed = (run State.init evs).flushArmed + 1) ∧
    ((step (run State.init evs) e).flushCleared = (run State.init evs).flushCleared + 1 ↔
        (step (run State.init evs) e).writes.length = (run State.init evs).writes.length + 1 ∧
          ((run State.init evs).timer ≠ TimerSlot.null ∨ isWellFormedDelivery e = true)) ∧
    ((step (run State.init evs) e).flushCleared = (run State.init evs).flushCleared ∨
        (step (run State.init evs) e).flushCleared = (run State.init evs).flushCleared + 1) ∧
    ((step (run State.init evs) e).writes.length = (run State.init evs).writes.length + 1 →
        (step (run State.init evs) e).timer = TimerSlot.null ∧
          (step (run State.init evs) e).buffer = []) ∧
    ((step (run State.init evs) e).writes.length = (run State.init evs).writes.length ∨
        (step (run State.init evs) e).writes.length = (run State.init evs).writes.length + 1) :=
  step_flush_timer (run State.init evs) e (run_timerTracksBuffer evs State.init (fun _ => rfl))

/-- C8 as stated fails twice.  At `N = BATCH_SIZE = 10`: after ten deliveries
one batch of ten has been captured, the buffer is empty and the flush timer is
not armed, so no flush timeout can fire and no further batch is captured.  And
in `flushBetweenTrace`, where ten messages are delivered from the idle state
and the only write succeeds before the next delivery, the flush timeout fires
after the first message: no batch is captured by the size trigger, the one
batch holds a single reading and nine readings are left in the buffer. -/
theorem no_timer_after_full_batches :
    (tenMessages.length = BATCH_SIZE ∧
      (deliverCommitted State.init tenMessages).writes.length = 1 ∧
      (deliverCommitted State.init tenMessages).buffer = [] ∧
      (deliverCommitted State.init tenMessages).timer ≠ TimerSlot.armed ∧
      enabled (deliverCommitted State.init tenMessages) Event.flushTimeout = false ∧
      (step (deliverCommitted State.init tenMessages) Event.flushTimeout).writes.length = 1) ∧
    (feasible State.init flushBetweenTrace = true ∧
      arrivedHandles flushBetweenTrace = [1, 2, 3, 4, 5, 6, 7, 8, 9, 10] ∧
      (run State.init flushBetweenTrace).writes = [⟨[1], [1], 0⟩] ∧
      (run State.init flushBetweenTrace).inflight = [] ∧
      (run State.init flushBetweenTrace).acked = [1] ∧
      (run State.init flushBetweenTrace).buffer = [2, 3, 4, 5, 6, 7, 8, 9, 10]) := by
  decide

/-- C8 amended: from a state with empty buffer and `pendingMessages`, null
timer, `isProcessing` false and no write pending, `N` well-formed messages are
delivered one after the other, each write started by a delivery succeeds
(without a call on the channel throwing) before the next delivery, and no
timeout fires in between (`commitSchedule`, whose turns can all occur).  Then
exactly `N / BATCH_SIZE` batches are captured, all by the size trigger, each of
exactly `BATCH_SIZE` readings and handles with `retryCount` 0; read one after
the other they are the first readings and handles in arrival order, followed
by the `N % BATCH_SIZE` remaining ones that are still in the buffer; the
captured handles are acknowledged in arrival order, nothing is rejected and no
write is pending.  When `N % BATCH_SIZE ≠ 0` the flush timer is armed and its
firing captures the remaining readings as one batch; when `N % BATCH_SIZE = 0`
the buffer is empty, the timer is null and no flush timeout can fire. -/
theorem size_trigger_chunks (s : State) (ms : List (Handle × Reading))
    (hb : s.buffer = []) (hpm : s.pendingMessages = []) (ht : s.timer = TimerSlot.null)
    (hp : s.isProcessing = false) (hi : s.inflight = []) :
    run s (commitSchedule s ms) = deliverCommitted s ms ∧
    feasible s (commitSchedule s ms) = true ∧
    arrivedHandles (commitSchedule s ms) = ms.map Prod.fst ∧
    arrivedReadings (commitSchedule s ms) = ms.map Prod.snd ∧
    (deliverCommitted s ms).writes = s.writes ++ capturedBatches s ms ∧
    (capturedBatches s ms).length = ms.length / BATCH_SIZE ∧
    (∀ w ∈ capturedBatches s ms,
      w.batchToProcess.length = BATCH_SIZE ∧ w.messagesToAck.length = BATCH_SIZE ∧
        w.retryCount = 0) ∧
    ms.map Prod.snd
      = ((capturedBatches s ms).map Write.batchToProcess).flatten
          ++ (deliverCommitted s ms).buffer ∧
    ms.map Prod.fst
      = ((capturedBatches s ms).map Write.messagesToAck).flatten
          ++ (deliverCommitted s ms).pendingMessages ∧
    (deliverCommitted s ms).buffer.length = ms.length % BATCH_SIZE ∧
    (deliverCommitted s ms).acked
      = s.acked ++ ((capturedBatches s ms).map Write.messagesToAck).flatten ∧
    (deliverCommitted s ms).nacked = s.nacked ∧
    (deliverCommitted s ms).inflight = [] ∧
    (deliverCommitted s ms).isProcessing = false ∧
    (deliverCommitted s ms).flushCleared = s.flushCleared + ms.length / BATCH_SIZE ∧
    (ms.length % BATCH_SIZE = 0 →
      (deliverCommitted s ms).buffer = [] ∧
      (deliverCommitted s ms).timer = TimerSlot.null ∧
      enabled (deliverCommitted s ms) Event.flushTimeout = false) ∧
    (ms.length % BATCH_SIZE ≠ 0 →
      (deliverCommitted s ms).timer = TimerSlot.armed ∧
      (step (deliverCommitted s ms) Event.flushTimeout).writes
        = (deliverCommitted s ms).writes
            ++ [⟨(deliverCommitted s ms).buffer, (deliverCommitted s ms).pendingMessages, 0⟩] ∧
      (step (deliverCommitted s ms) Event.flushTimeout).buffer = [] ∧
      (step (deliverCommitted s ms) Event.flushTimeout).timer = TimerSlot.null) := by
  obtain ⟨new, h1, h2, h3, h4, h5, h6, h7, h8, h9, h10, h11, h12, h13, h14⟩ :=
    deliverCommitted_spec ms s hp hi (by rw [hb]; decide) (by simp [hb, hpm])
      (fun _ => ht) (fun h => absurd hb h)
  have hcap : capturedBatches s ms = new := by
    unfold capturedBatches
    rw [h1, List.drop_left]
  rw [hb, List.length_nil, Nat.zero_add] at h2 h6
  rw [hb, List.nil_append] at h4
  rw [hpm, List.nil_append] at h5
  rw [hcap]
  refine ⟨commitSchedule_run ms s, commitSchedule_feasible ms s,
    (commitSchedule_arrived ms s).1, (commitSchedule_arrived ms s).2,
    h1, h2, h3, h4, h5, h6, h7, h8, h9, h11, by rw [h12, h2], ?_, ?_⟩
  · intro hz
    have hbe : (deliverCommitted s ms).buffer = [] := by
      apply List.eq_nil_of_length_eq_zero
      rw [h6]; exact hz
    have hte := h13 hbe
    exact ⟨hbe, hte, by simp [enabled, hte]⟩
  · intro hnz
    have hbe : (deliverCommitted s ms).buffer ≠ [] := by
      intro hbe
      rw [hbe, List.length_nil] at h6
      exact hnz h6.symm
    have hte := h14 hbe
    have hl : ¬ (deliverCommitted s ms).buffer.length = 0 := by
      rw [h6]; exact hnz
    refine ⟨hte, ?_, ?_, ?_⟩ <;> simp [step, hte, processBatch, h11, hl, hbe]

/-- C8 amended, at twelve messages delivered from the initial state: one
batch is captured and the schedule can occur. -/
theorem size_trigger_chunks_witness :
    (State.init.buffer = [] ∧ State.init.pendingMessages = [] ∧
      State.init.timer = TimerSlot.null ∧ State.init.isProcessing = false ∧
      State.init.inflight = []) ∧
    feasible State.init (commitSchedule State.init twelveMessages) = true ∧
    (capturedBatches State.init twelveMessages).length = twelveMessages.length / BATCH_SIZE :=
  ⟨by decide,
   (size_trigger_chunks State.init twelveMessages rfl rfl rfl rfl rfl).2.1,
   (size_trigger_chunks State.init twelveMessages rfl rfl rfl rfl rfl).2.2.2.2.2.1⟩

/-- C9: when the pending write `w` (readings `B`, handles `H`) fails with
`retryCount < MAX_RETRIES` while the buffer holds `N` and `pendingMessages`
holds `M`, the buffer becomes `B ++ N` and `pendingMessages` becomes `H ++ M`,
no handle is acknowledged or rejected by that turn, and `w` is no longer
pending. -/
theorem failed_batch_reinserted_at_front (s : State) (i : Nat) (w : Write)
    (hw : s.inflight[i]? = some w) (hr : w.retryCount < MAX_RETRIES) :
    (step s (Event.writeSettled i false)).buffer = w.batchToProcess ++ s.buffer ∧
    (step s (Event.writeSettled i false)).pendingMessages = w.messagesToAck ++ s.pendingMessages ∧
    (step s (Event.writeSettled i false)).acked = s.acked ∧
    (step s (Event.writeSettled i false)).nacked = s.nacked ∧
    (step s (Event.writeSettled i false)).inflight = s.inflight.eraseIdx i := by
  simp [step, hw, resume_none, hr]

/-- C9 at the failure of the write of messages 1 to 10 while message 11 waits. -/
theorem failed_batch_reinserted_at_front_witness :
    (firstAttemptPending.inflight[0]?
        = some ⟨[1, 2, 3, 4, 5, 6, 7, 8, 9, 10], [1, 2, 3, 4, 5, 6, 7, 8, 9, 10], 0⟩ ∧
      (0 : Nat) < MAX_RETRIES) ∧
    firstAttemptPending.buffer = [11] ∧
    (step firstAttemptPending (Event.writeSettled 0 false)).buffer
      = [1, 2, 3, 4, 5, 6, 7, 8, 9, 10, 11] ∧
    (step firstAttemptPending (Event.writeSettled 0 false)).pendingMessages
      = [1, 2, 3, 4, 5, 6, 7, 8, 9, 10, 11] :=
  ⟨by decide, by decide,
   (failed_batch_reinserted_at_front firstAttemptPending 0
      ⟨[1, 2, 3, 4, 5, 6, 7, 8, 9, 10], [1, 2, 3, 4, 5, 6, 7, 8, 9, 10], 0⟩
      (by decide) (by decide)).1,
   (failed_batch_reinserted_at_front firstAttemptPending 0
      ⟨[1, 2, 3, 4, 5, 6, 7, 8, 9, 10], [1, 2, 3, 4, 5, 6, 7, 8, 9, 10], 0⟩
      (by decide) (by decide)).2.1⟩

/-- C10 fails on the code: in `staleChainTrace`, every turn of which can occur,
the retry timeout left by the failure of messages 1 to 10 captures message 12
with `retryCount` 1, so the first write of message 12 already counts as attempt
1: its two failures schedule 10000 ms and 20000 ms (not 5000 and 10000), and it
is committed by its third write after 30000 ms, not 15000 ms. -/
theorem stale_retry_counter_skips_first_delay :
    feasible State.init staleChainTrace = true ∧
    (run State.init staleCaptureTrace).inflight = [⟨[12], [12], 1⟩] ∧
    (run State.init staleCaptureTrace).retryDelays = [5000] ∧
    (run State.init staleChainTrace).writes
      = [⟨[1, 2, 3, 4, 5, 6, 7, 8, 9, 10], [1, 2, 3, 4, 5, 6, 7, 8, 9, 10], 0⟩,
         ⟨[1, 2, 3, 4, 5, 6, 7, 8, 9, 10, 11], [1, 2, 3, 4, 5, 6, 7, 8, 9, 10, 11], 0⟩,
         ⟨[12], [12], 1⟩, ⟨[12], [12], 2⟩, ⟨[12], [12], 3⟩] ∧
    (run State.init staleChainTrace).retryDelays = [5000, 10000, 20000] ∧
    (run State.init staleChainTrace).acked = [1, 2, 3, 4, 5, 6, 7, 8, 9, 10, 11, 12] ∧
    (run State.init staleChainTrace).nacked = [] ∧
    10000 + 20000 ≠ RETRY_DELAY + 2 * RETRY_DELAY := by
  decide

end Speedometer
